import Mathlib

/-!
Verification of the document-archive MCP server core against its
natural-language specification.  The definitions below are shallow
embeddings of the TypeScript sources:

* `src/utils/document.ts` — `DocumentChunk`, `DocumentUtils`
* `src/database/lancedb-service.ts` — `LanceDBService`
* `src/services/document-processor.ts` — `DocumentProcessor.chunkDocument`
* `src/database/db-connector.ts` (watcher part) — debounced handlers
* `src/utils/readiness.ts` — `ReadinessManager`

Machine numbers are modelled as `Nat`/`Int`/`ℝ`; JavaScript `undefined`
as `Option`; thrown exceptions as `Except`.
-/

namespace DocArchive

/-! ## Data model: `DocumentChunk` (src/utils/document.ts) -/

/-- The sixteen-field `DocumentChunk` interface. -/
structure DocumentChunk where
  chunkId : String
  documentId : String
  chunkIndex : Int
  content : String
  filename : String
  title : String
  fileType : String
  filePath : String
  language : String
  fileSize : Int
  createdAt : String
  updatedAt : String
  fileHash : String
  pageNumber : Int
  startIndex : Int
  endIndex : Int
  deriving Repr, DecidableEq

/-- The snake_case LanceDB record produced by `DocumentUtils.chunkToLanceDBRecord`:
all sixteen chunk fields plus the embedding vector.  The vector type is a
parameter (`number[]` in the source). -/
structure LanceRecord (V : Type) where
  vector : V
  document_id : String
  chunk_id : String
  chunk_index : Int
  content : String
  filename : String
  title : String
  file_type : String
  file_path : String
  language : String
  file_size : Int
  created_at : String
  updated_at : String
  file_hash : String
  page_number : Int
  start_index : Int
  end_index : Int
  deriving Repr, DecidableEq

namespace DocumentUtils

/-- `DocumentUtils.chunkToLanceDBRecord` (src/utils/document.ts): camelCase
chunk plus embedding to snake_case record. -/
def chunkToLanceDBRecord {V : Type} (chunk : DocumentChunk) (embedding : V) :
    LanceRecord V where
  vector := embedding
  document_id := chunk.documentId
  chunk_id := chunk.chunkId
  chunk_index := chunk.chunkIndex
  content := chunk.content
  filename := chunk.filename
  title := chunk.title
  file_type := chunk.fileType
  file_path := chunk.filePath
  language := chunk.language
  file_size := chunk.fileSize
  created_at := chunk.createdAt
  updated_at := chunk.updatedAt
  file_hash := chunk.fileHash
  page_number := chunk.pageNumber
  start_index := chunk.startIndex
  end_index := chunk.endIndex

/-- `DocumentUtils.lanceDBRecordToChunk` (src/utils/document.ts): snake_case
record back to the camelCase chunk, dropping the vector. -/
def lanceDBRecordToChunk {V : Type} (record : LanceRecord V) : DocumentChunk where
  documentId := record.document_id
  chunkId := record.chunk_id
  chunkIndex := record.chunk_index
  content := record.content
  filename := record.filename
  title := record.title
  fileType := record.file_type
  filePath := record.file_path
  language := record.language
  fileSize := record.file_size
  createdAt := record.created_at
  updatedAt := record.updated_at
  fileHash := record.file_hash
  pageNumber := record.page_number
  startIndex := record.start_index
  endIndex := record.end_index

end DocumentUtils

/-! ## Vector-index policy (src/database/lancedb-service.ts,
`createVectorIndexInternal`) -/

/-- Parameters of the IVF-PQ index passed to `table.createIndex`. -/
structure IndexParams where
  numPartitions : Nat
  numSubVectors : Nat
  distanceType : String
  deriving Repr, DecidableEq

/-- `Math.floor (Math.sqrt n)` on a non-negative integer row count is the
integer square root. -/
def floorSqrt (n : Nat) : Nat := Nat.sqrt n

namespace LanceDBService

/-- The index decision in `createVectorIndexInternal`: with
`rowCount > 256` build an IVF-PQ index with
`numPartitions = Math.max(4, Math.min(Math.floor(Math.sqrt(rowCount)), 100))`
and
`numSubVectors = Math.min(16, Math.max(1, Math.floor(dim / 24)))`,
`distanceType: 'cosine'`; otherwise build nothing. -/
def createVectorIndexInternal (rowCount : Nat) (embeddingDimension : Nat) :
    Option IndexParams :=
  if rowCount > 256 then
    some
      { numPartitions := Nat.max 4 (Nat.min (floorSqrt rowCount) 100)
        numSubVectors := Nat.min 16 (Nat.max 1 (embeddingDimension / 24))
        distanceType := "cosine" }
  else
    none

end LanceDBService

/-- Characterization of the integer square root, for evaluating it on
concrete row counts. -/
theorem floorSqrt_eq_of (a n : Nat) (h1 : a * a ≤ n) (h2 : n < (a + 1) * (a + 1)) :
    floorSqrt n = a :=
  (Nat.eq_sqrt.mpr ⟨h1, h2⟩).symm

attribute [irreducible] floorSqrt

theorem floorSqrt_256 : floorSqrt 256 = 16 := floorSqrt_eq_of 16 256 (by norm_num) (by norm_num)

theorem floorSqrt_288 : floorSqrt 288 = 16 := floorSqrt_eq_of 16 288 (by norm_num) (by norm_num)

theorem floorSqrt_10000 : floorSqrt 10000 = 100 :=
  floorSqrt_eq_of 100 10000 (by norm_num) (by norm_num)

/-- Nearest integer to `√n` (round-half-up), used to state the spec's
`round(sqrt(rowCount))`. -/
def roundSqrt (n : Nat) : Nat :=
  if floorSqrt n * floorSqrt n + floorSqrt n < n then floorSqrt n + 1 else floorSqrt n

/-- `round (n / 24)` on naturals (round-half-up), used to state the spec's
`round(embeddingDimension / 24)`. -/
def roundDiv24 (n : Nat) : Nat := (n + 12) / 24

/-- `clamp lo hi x` as the spec writes it: `clamp(x, min lo, max hi)`. -/
def clamp (lo hi x : Nat) : Nat := Nat.min hi (Nat.max lo x)

/-- Modelled from the spec: the index policy as the spec sentence states it —
below 256 rows nothing, at or above 256 rows an index with
`partitions = clamp(round(sqrt(rowCount)), 4, 100)` and
`sub-vectors = clamp(round(dim / 24), 1, 16)`. -/
def specIndexPlan (rowCount : Nat) (embeddingDimension : Nat) :
    Option IndexParams :=
  if rowCount ≥ 256 then
    some
      { numPartitions := clamp 4 100 (roundSqrt rowCount)
        numSubVectors := clamp 1 16 (roundDiv24 embeddingDimension)
        distanceType := "cosine" }
  else
    none

/-! ## Theorems for C2 and C10 (definitions for the other claims follow) -/

/-- C2 (counterexample): the claim fails on the code at row count 256 —
the source tests `rowCount > 256`, so at exactly 256 rows no index is
built although the claim requires one; and both formulas use
`Math.floor`, not `round`: at 288 rows and dimension 36 the code picks
16 partitions and 1 sub-vector where the claim's rounded formulas give
17 and 2. -/
theorem createVectorIndexInternal_ne_claim :
    LanceDBService.createVectorIndexInternal 256 384 = none ∧
      specIndexPlan 256 384 = some ⟨16, 16, "cosine"⟩ ∧
      LanceDBService.createVectorIndexInternal 288 36 = some ⟨16, 1, "cosine"⟩ ∧
      specIndexPlan 288 36 = some ⟨17, 2, "cosine"⟩ := by
  refine ⟨rfl, ?_, ?_, ?_⟩
  · simp only [specIndexPlan, roundSqrt, floorSqrt_256, roundDiv24, clamp]
    decide
  · simp only [LanceDBService.createVectorIndexInternal, floorSqrt_288]
    decide
  · simp only [specIndexPlan, roundSqrt, floorSqrt_288, roundDiv24, clamp]
    decide

/-- C2 (amended): at 256 rows or below no vector index is built, and
strictly above 256 rows an approximate index is built with
partitions = clamp(⌊sqrt(rowCount)⌋, min 4, max 100),
sub-vectors = clamp(⌊embeddingDimension / 24⌋, min 1, max 16), and
cosine as the build-time distance metric. -/
theorem createVectorIndexInternal_policy (rowCount embeddingDimension : Nat) :
    (rowCount ≤ 256 →
      LanceDBService.createVectorIndexInternal rowCount embeddingDimension = none) ∧
    (256 < rowCount →
      LanceDBService.createVectorIndexInternal rowCount embeddingDimension =
        some
          { numPartitions := clamp 4 100 (floorSqrt rowCount)
            numSubVectors := clamp 1 16 (embeddingDimension / 24)
            distanceType := "cosine" }) := by
  constructor
  · intro h
    simp [LanceDBService.createVectorIndexInternal, Nat.not_lt.mpr h]
  · intro h
    simp only [LanceDBService.createVectorIndexInternal, gt_iff_lt, if_pos h, clamp,
      Option.some.injEq, IndexParams.mk.injEq, and_true, true_and]
    simp only [Nat.max_def, Nat.min_def]
    split_ifs <;> omega

/-- C2 (witness for the amended theorem): at 200 rows no index; at 10000
rows and dimension 384 the index has 100 partitions and 16 sub-vectors. -/
theorem createVectorIndexInternal_policy_witness :
    LanceDBService.createVectorIndexInternal 200 384 = none ∧
      LanceDBService.createVectorIndexInternal 10000 384 =
        some ⟨100, 16, "cosine"⟩ := by
  constructor
  · exact (createVectorIndexInternal_policy 200 384).1 (by decide)
  · have h := (createVectorIndexInternal_policy 10000 384).2 (by decide)
    rw [h, clamp, clamp, floorSqrt_10000]
    decide

/-! ## Score normalization (src/database/lancedb-service.ts,
`similaritySearch` result mapping) -/

/-- The `distanceType` union of `RetrievalConfig`
(`"cosine" | "euclidean" | "dot"`). -/
inductive DistanceType
  | cosine
  | euclidean
  | dot
  deriving Repr, DecidableEq

/-- The `switch (config.distanceType)` that maps a raw `_distance` to a
similarity score in `similaritySearch`: cosine gives `1 - _distance / 2`,
dot gives `Math.max(0, Math.min(1, _distance))`, and the default branch
(euclidean / l2) gives `Math.exp(-_distance)`. -/
noncomputable def normalizeScore (distanceType : DistanceType) (d : ℝ) : ℝ :=
  match distanceType with
  | .cosine => 1 - d / 2
  | .dot => max 0 (min 1 d)
  | .euclidean => Real.exp (-d)

/-- The range of raw distances the underlying store can report for each
metric: cosine distance lies in `[0, 2]`, l2 distance is non-negative,
and the (negated) dot product is unconstrained. -/
def validDistance (distanceType : DistanceType) (d : ℝ) : Prop :=
  match distanceType with
  | .cosine => 0 ≤ d ∧ d ≤ 2
  | .dot => True
  | .euclidean => 0 ≤ d

/-- C3: for every raw result distance in the metric's range, the score is
in `[0, 1]` and is computed by the claimed transform for each metric:
`1 - d/2` for cosine, `clamp(d, 0, 1)` for dot, `exp(-d)` for
euclidean/other. -/
theorem normalizeScore_bounds (distanceType : DistanceType) (d : ℝ)
    (h : validDistance distanceType d) :
    0 ≤ normalizeScore distanceType d ∧ normalizeScore distanceType d ≤ 1 ∧
      (distanceType = .cosine → normalizeScore distanceType d = 1 - d / 2) ∧
      (distanceType = .dot → normalizeScore distanceType d = max 0 (min 1 d)) ∧
      (distanceType = .euclidean → normalizeScore distanceType d = Real.exp (-d)) := by
  cases distanceType with
  | cosine =>
      obtain ⟨h0, h2⟩ := h
      refine ⟨?_, ?_, fun _ => rfl, ?_, ?_⟩
      · show (0 : ℝ) ≤ 1 - d / 2
        linarith
      · show (1 : ℝ) - d / 2 ≤ 1
        linarith
      · intro hc
        exact absurd hc (by decide)
      · intro hc
        exact absurd hc (by decide)
  | euclidean =>
      refine ⟨(Real.exp_pos _).le, ?_, ?_, ?_, fun _ => rfl⟩
      · show Real.exp (-d) ≤ 1
        calc Real.exp (-d) ≤ Real.exp 0 := Real.exp_le_exp.mpr (by simpa using h)
          _ = 1 := Real.exp_zero
      · intro hc
        exact absurd hc (by decide)
      · intro hc
        exact absurd hc (by decide)
  | dot =>
      refine ⟨le_max_left 0 _, max_le (by norm_num) (min_le_left 1 d), ?_, fun _ => rfl, ?_⟩
      · intro hc
        exact absurd hc (by decide)
      · intro hc
        exact absurd hc (by decide)

/-- C3 (witness): concrete evaluations — cosine distance `1/2` scores
`3/4`, dot distance `3` clamps to `1`, euclidean distance `1` scores
`exp (-1)` — all within `[0, 1]`. -/
theorem normalizeScore_bounds_witness :
    (0 ≤ normalizeScore .cosine (1/2) ∧ normalizeScore .cosine (1/2) ≤ 1 ∧
        normalizeScore .cosine (1/2) = 3/4) ∧
      (0 ≤ normalizeScore .dot 3 ∧ normalizeScore .dot 3 = 1) ∧
      (0 ≤ normalizeScore .euclidean 1 ∧ normalizeScore .euclidean 1 ≤ 1) := by
  have hc := normalizeScore_bounds .cosine (1/2) (by constructor <;> norm_num)
  have hd := normalizeScore_bounds .dot 3 trivial
  have he := normalizeScore_bounds .euclidean 1 (by show (0 : ℝ) ≤ 1; norm_num)
  refine ⟨⟨hc.1, hc.2.1, ?_⟩, ⟨hd.1, ?_⟩, ⟨he.1, he.2.1⟩⟩
  · rw [hc.2.2.1 rfl]; norm_num
  · rw [hd.2.2.2.1 rfl]; norm_num

/-! ## Chunking (src/services/document-processor.ts, `chunkDocument`) -/

/-- One loaded LangChain document (a segment of the source file) with the
page-related metadata `chunkDocument` inspects: `metadata.loc?.pageNumber`
and `metadata.pageNumber`. -/
structure Segment where
  pageContent : String
  locPageNumber : Option Int
  pageNumber : Option Int
  deriving Repr, DecidableEq

/-- One piece returned by the text splitter for a segment, with the
optional `metadata.startIndex` / `metadata.endIndex` offsets. -/
structure SplitPiece where
  pageContent : String
  startIndex : Option Int
  endIndex : Option Int
  deriving Repr, DecidableEq

/-- The `baseMetadata` record assembled in `processDocument`. -/
structure BaseMetadata where
  filename : String
  title : String
  fileType : String
  filePath : String
  fileHash : String
  fileSize : Int
  language : String
  deriving Repr, DecidableEq

/-- JavaScript `a || b` on an optional number: both `undefined` and `0`
fall through to the default. -/
def jsOrNum (o : Option Int) (dflt : Int) : Int :=
  match o with
  | none => dflt
  | some v => if v = 0 then dflt else v

namespace DocumentProcessor

/-- The page-number expression of `chunkDocument`:
`doc.metadata.loc?.pageNumber ?? doc.metadata.pageNumber ??
(docs.length > 1 ? i + 1 : 0)`. -/
def segmentPageNumber (docsLength : Nat) (i : Nat) (seg : Segment) : Int :=
  match seg.locPageNumber with
  | some p => p
  | none =>
      match seg.pageNumber with
      | some p => p
      | none => if docsLength > 1 then (i : Int) + 1 else 0

/-- The chunk record pushed onto `allChunks` for split piece `piece` at
global chunk index `n`. -/
def mkChunk (documentId : String) (bm : BaseMetadata) (timestamp : String)
    (page : Int) (n : Nat) (piece : SplitPiece) : DocumentChunk where
  chunkId := documentId ++ "_chunk" ++ toString n
  documentId := documentId
  chunkIndex := Int.ofNat n
  content := piece.pageContent
  filename := bm.filename
  title := bm.title
  fileType := bm.fileType
  filePath := bm.filePath
  language := bm.language
  fileSize := bm.fileSize
  createdAt := timestamp
  updatedAt := timestamp
  fileHash := bm.fileHash
  pageNumber := page
  startIndex := jsOrNum piece.startIndex 0
  endIndex := jsOrNum piece.endIndex (piece.pageContent.length : Int)

/-- The inner `for (const splitDoc of splitDocs)` loop: one chunk per
piece, incrementing the global chunk index. -/
def chunkPieces (documentId : String) (bm : BaseMetadata) (ts : String)
    (page : Int) : Nat → List SplitPiece → List DocumentChunk
  | _, [] => []
  | n, p :: ps =>
      mkChunk documentId bm ts page n p :: chunkPieces documentId bm ts page (n + 1) ps

/-- The outer `for (let i = 0; i < docs.length; i++)` loop, carrying the
segment position `i` and the running chunk index `n`. -/
def chunkSegments (split : Segment → List SplitPiece) (documentId : String)
    (bm : BaseMetadata) (ts : String) (docsLength : Nat) :
    Nat → Nat → List Segment → List DocumentChunk
  | _, _, [] => []
  | i, n, seg :: rest =>
      let pieces := split seg
      chunkPieces documentId bm ts (segmentPageNumber docsLength i seg) n pieces ++
        chunkSegments split documentId bm ts docsLength (i + 1) (n + pieces.length) rest

/-- `DocumentProcessor.chunkDocument`, with the external
`RecursiveCharacterTextSplitter.splitDocuments` abstracted as the `split`
parameter. -/
def chunkDocument (split : Segment → List SplitPiece) (docs : List Segment)
    (documentId : String) (bm : BaseMetadata) (ts : String) : List DocumentChunk :=
  chunkSegments split documentId bm ts docs.length 0 0 docs

theorem chunkPieces_map_chunkIndex (documentId : String) (bm : BaseMetadata)
    (ts : String) (page : Int) (n : Nat) (ps : List SplitPiece) :
    (chunkPieces documentId bm ts page n ps).map (fun c => c.chunkIndex) =
      (List.range' n ps.length).map Int.ofNat := by
  induction ps generalizing n with
  | nil => rfl
  | cons p ps ih => simp [chunkPieces, mkChunk, List.range', ih]

theorem chunkPieces_length (documentId : String) (bm : BaseMetadata)
    (ts : String) (page : Int) (n : Nat) (ps : List SplitPiece) :
    (chunkPieces documentId bm ts page n ps).length = ps.length := by
  induction ps generalizing n with
  | nil => rfl
  | cons p ps ih => simp [chunkPieces, ih]

theorem chunkPieces_map_pageNumber (documentId : String) (bm : BaseMetadata)
    (ts : String) (page : Int) (n : Nat) (ps : List SplitPiece) :
    (chunkPieces documentId bm ts page n ps).map (fun c => c.pageNumber) =
      List.replicate ps.length page := by
  induction ps generalizing n with
  | nil => rfl
  | cons p ps ih => simp [chunkPieces, mkChunk, List.replicate, ih]

theorem chunkPieces_chunkId (documentId : String) (bm : BaseMetadata)
    (ts : String) (page : Int) (n : Nat) (ps : List SplitPiece) :
    ∀ c ∈ chunkPieces documentId bm ts page n ps,
      c.chunkId = documentId ++ "_chunk" ++ toString c.chunkIndex := by
  induction ps generalizing n with
  | nil => intro c hc; cases hc
  | cons p ps ih =>
      intro c hc
      rcases List.mem_cons.mp hc with hc | hc
      · subst hc
        rfl
      · exact ih (n + 1) c hc

/-- Total number of pieces produced by the splitter over a list of
segments. -/
def totalPieces (split : Segment → List SplitPiece) (segs : List Segment) : Nat :=
  (segs.map (fun s => (split s).length)).sum

theorem chunkSegments_map_chunkIndex (split : Segment → List SplitPiece)
    (documentId : String) (bm : BaseMetadata) (ts : String) (docsLength : Nat)
    (segs : List Segment) (i n : Nat) :
    (chunkSegments split documentId bm ts docsLength i n segs).map (fun c => c.chunkIndex) =
      (List.range' n (totalPieces split segs)).map Int.ofNat := by
  induction segs generalizing i n with
  | nil => rfl
  | cons seg rest ih =>
      have hrw : totalPieces split (seg :: rest) =
          totalPieces split rest + (split seg).length := by
        simp [totalPieces, Nat.add_comm]
      show (chunkPieces documentId bm ts (segmentPageNumber docsLength i seg) n (split seg) ++
          chunkSegments split documentId bm ts docsLength (i + 1)
            (n + (split seg).length) rest).map (fun c => c.chunkIndex) =
        (List.range' n (totalPieces split (seg :: rest))).map Int.ofNat
      rw [List.map_append, chunkPieces_map_chunkIndex, ih, hrw,
        ← List.range'_append_1, List.map_append]

theorem chunkSegments_length (split : Segment → List SplitPiece)
    (documentId : String) (bm : BaseMetadata) (ts : String) (docsLength : Nat)
    (segs : List Segment) (i n : Nat) :
    (chunkSegments split documentId bm ts docsLength i n segs).length =
      totalPieces split segs := by
  induction segs generalizing i n with
  | nil => rfl
  | cons seg rest ih =>
      simp [chunkSegments, chunkPieces_length, ih, totalPieces]

theorem chunkSegments_chunkId (split : Segment → List SplitPiece)
    (documentId : String) (bm : BaseMetadata) (ts : String) (docsLength : Nat)
    (segs : List Segment) (i n : Nat) :
    ∀ c ∈ chunkSegments split documentId bm ts docsLength i n segs,
      c.chunkId = documentId ++ "_chunk" ++ toString c.chunkIndex := by
  induction segs generalizing i n with
  | nil => intro c hc; cases hc
  | cons seg rest ih =>
      intro c hc
      rcases List.mem_append.mp hc with hc | hc
      · exact chunkPieces_chunkId documentId bm ts _ n (split seg) c hc
      · exact ih (i + 1) (n + (split seg).length) c hc

theorem chunkSegments_map_pageNumber (split : Segment → List SplitPiece)
    (documentId : String) (bm : BaseMetadata) (ts : String) (docsLength : Nat)
    (segs : List Segment) (i n : Nat) :
    (chunkSegments split documentId bm ts docsLength i n segs).map (fun c => c.pageNumber) =
      (segs.enumFrom i).flatMap
        (fun p => List.replicate (split p.2).length (segmentPageNumber docsLength p.1 p.2)) := by
  induction segs generalizing i n with
  | nil => rfl
  | cons seg rest ih =>
      show (chunkPieces documentId bm ts (segmentPageNumber docsLength i seg) n (split seg) ++
          chunkSegments split documentId bm ts docsLength (i + 1)
            (n + (split seg).length) rest).map (fun c => c.pageNumber) =
        List.replicate (split seg).length (segmentPageNumber docsLength i seg) ++
          (rest.enumFrom (i + 1)).flatMap
            (fun p => List.replicate (split p.2).length
              (segmentPageNumber docsLength p.1 p.2))
      rw [List.map_append, chunkPieces_map_pageNumber, ih]

/-- C5: for every split function and list of loaded segments, the chunks
of one document carry chunkIndex values exactly `0 .. n-1` in order
(no gaps, sequential across the whole document, not reset per segment),
every chunkId is `{documentId}_chunk{n}` for its own index `n`, and the
page numbers are, segment by segment, the segment's explicit page
metadata if present, else the 1-based segment position when there are
multiple segments, else 0. -/
theorem chunkDocument_spec (split : Segment → List SplitPiece) (docs : List Segment)
    (documentId : String) (bm : BaseMetadata) (ts : String) :
    (chunkDocument split docs documentId bm ts).map (fun c => c.chunkIndex) =
        (List.range (chunkDocument split docs documentId bm ts).length).map
          Int.ofNat ∧
      (∀ c ∈ chunkDocument split docs documentId bm ts,
          c.chunkId = documentId ++ "_chunk" ++ toString c.chunkIndex) ∧
      (chunkDocument split docs documentId bm ts).map (fun c => c.pageNumber) =
        docs.enum.flatMap
          (fun p => List.replicate (split p.2).length
            (segmentPageNumber docs.length p.1 p.2)) := by
  refine ⟨?_, ?_, ?_⟩
  · rw [chunkDocument, chunkSegments_map_chunkIndex, chunkSegments_length,
      List.range_eq_range']
  · exact chunkSegments_chunkId split documentId bm ts docs.length docs 0 0
  · rw [chunkDocument, chunkSegments_map_pageNumber, List.enum]

/-- A concrete splitter for the C5 witness: the first segment splits in
two pieces, any other in one. -/
def splitW : Segment → List SplitPiece := fun seg =>
  if seg.pageContent = "ab" then [⟨"a", some 0, some 1⟩, ⟨"b", some 1, some 2⟩]
  else [⟨"c", none, none⟩]

/-- Concrete segments for the C5 witness: the first carries explicit page
metadata 7, the second none. -/
def docsW : List Segment := [⟨"ab", some 7, none⟩, ⟨"c", none, none⟩]

/-- Concrete base metadata for the C5 witness. -/
def bmW : BaseMetadata := ⟨"f", "t", "txt", "p", "h", 3, "en"⟩

/-- C5 (witness): two segments split into two and one pieces — chunk
indices are `[0, 1, 2]`, the chunk at index 1 has chunkId
`doc_w_chunk1`, and the page numbers are `[7, 7, 2]` (explicit metadata
on the first segment, 1-based position for the second). -/
theorem chunkDocument_spec_witness :
    (chunkDocument splitW docsW "doc_w" bmW "2024").map (fun c => c.chunkIndex) =
        [0, 1, 2] ∧
      (mkChunk "doc_w" bmW "2024" 7 1 ⟨"b", some 1, some 2⟩).chunkId =
        "doc_w" ++ "_chunk" ++
          toString (mkChunk "doc_w" bmW "2024" 7 1 ⟨"b", some 1, some 2⟩).chunkIndex ∧
      (chunkDocument splitW docsW "doc_w" bmW "2024").map (fun c => c.pageNumber) =
        [7, 7, 2] := by
  have h := chunkDocument_spec splitW docsW "doc_w" bmW "2024"
  refine ⟨?_, ?_, ?_⟩
  · rw [h.1]
    rfl
  · exact h.2.1 _ (by decide)
  · rw [h.2.2]
    rfl

end DocumentProcessor

/-- C10: converting a chunk to its snake_case LanceDB record and back is
the identity on all sixteen chunk fields; the record itself carries the
embedding vector unchanged, and the inverse direction drops only that
vector. -/
theorem lanceDBRecord_roundTrip {V : Type} (c : DocumentChunk) (v : V) :
    DocumentUtils.lanceDBRecordToChunk (DocumentUtils.chunkToLanceDBRecord c v) = c ∧
      (DocumentUtils.chunkToLanceDBRecord c v).vector = v :=
  ⟨rfl, rfl⟩

/-! ## Predicate strings (src/database/lancedb-service.ts,
`deleteDocument` and `similaritySearch` filters) -/

/-- The single-quote character of the SQL-style predicate templates. -/
def squote : Char := Char.ofNat 39

/-- A single-quote as a string. -/
def squoteStr : String := String.singleton squote

/-- A value rendered as a quoted string literal, exactly as the template
interpolation writes it: no escaping whatsoever. -/
def quoteValue (value : String) : String := squoteStr ++ value ++ squoteStr

namespace LanceDBService

/-- An equality condition as interpolated by the source
(the template is the field name,  ` = `,  and the quoted value). -/
def eqCondition (field value : String) : String :=
  field ++ " = " ++ quoteValue value

/-- The predicate handed to both `countRows` and `delete` in
`deleteDocument`. -/
def deletePredicate (documentId : String) : String :=
  eqCondition "document_id" documentId

/-- The `IN`-list condition of `similaritySearch` for the document-id and
file-type allow-lists. -/
def inCondition (field : String) (values : List String) : String :=
  field ++ " IN (" ++ String.intercalate ", " (values.map quoteValue) ++ ")"

end LanceDBService

/-- Strip an expected prefix from a character list. -/
def stripPrefixL : List Char → List Char → Option (List Char)
  | [], cs => some cs
  | _ :: _, [] => none
  | p :: ps, c :: cs => if c = p then stripPrefixL ps cs else none

/-- Read the body of a quoted string literal up to its closing quote,
which must end the input: fails when a quote appears before the end (the
literal terminates early and trailing text changes the predicate's
structure) or no closing quote exists. -/
def readLiteralBody : List Char → Option (List Char)
  | [] => none
  | c :: cs =>
      if c = squote then (if cs.isEmpty then some [] else none)
      else (readLiteralBody cs).map (fun b => c :: b)

/-- Parse a string of the exact shape the store's engine accepts as an
equality test of `field` against one string literal, returning that
literal. -/
def parseEqPredicate (field : String) (s : String) : Option String :=
  match stripPrefixL (field ++ " = " ++ squoteStr).data s.data with
  | none => none
  | some rest => (readLiteralBody rest).map (fun cs => String.mk cs)

theorem stripPrefixL_append (p cs : List Char) : stripPrefixL p (p ++ cs) = some cs := by
  induction p with
  | nil => rfl
  | cons c ps ih => simp [stripPrefixL, ih]

theorem readLiteralBody_append (body : List Char) (h : squote ∉ body) :
    readLiteralBody (body ++ [squote]) = some body := by
  induction body with
  | nil => simp [readLiteralBody]
  | cons c cs ih =>
      have hc : ¬(c = squote) := fun hc => h (hc ▸ List.mem_cons_self c cs)
      have hcs : squote ∉ cs := fun hm => h (List.mem_cons_of_mem c hm)
      simp [readLiteralBody, hc, ih hcs]

/-- A quote-free value embedded in an equality condition parses back to
exactly that value: the predicate really is an equality test on it. -/
theorem parseEqPredicate_eqCondition (field v : String) (h : squote ∉ v.data) :
    parseEqPredicate field (LanceDBService.eqCondition field v) = some v := by
  have hdata : (LanceDBService.eqCondition field v).data =
      (field ++ " = " ++ squoteStr).data ++ (v.data ++ [squote]) := by
    simp [LanceDBService.eqCondition, quoteValue, squoteStr]
  rw [parseEqPredicate, hdata, stripPrefixL_append]
  show Option.map (fun cs => String.mk cs) (readLiteralBody (v.data ++ [squote])) = some v
  rw [readLiteralBody_append v.data h]
  rfl

/-! ## `deleteDocument` over the table model -/

namespace LanceDBService

/-- The table's `countRows(pred)` for the predicate shape this service
issues: number of rows whose `document_id` equals the parsed literal; a
predicate that does not parse as such an equality is a query error. -/
def countRows {V : Type} (pred : String) (rows : List (LanceRecord V)) :
    Except String Nat :=
  match parseEqPredicate "document_id" pred with
  | some lit => .ok (rows.filter (fun r => r.document_id == lit)).length
  | none => .error "invalid filter predicate"

/-- The table's `delete(pred)`: removes exactly the rows whose
`document_id` equals the parsed literal. -/
def tableDelete {V : Type} (pred : String) (rows : List (LanceRecord V)) :
    Except String (List (LanceRecord V)) :=
  match parseEqPredicate "document_id" pred with
  | some lit => .ok (rows.filter (fun r => !(r.document_id == lit)))
  | none => .error "invalid filter predicate"

/-- The service state `deleteDocument` reads: the readiness flag and the
open table. -/
structure ServiceState (V : Type) where
  isReady : Bool
  table : Option (List (LanceRecord V))
  deriving Repr, DecidableEq

/-- `LanceDBService.deleteDocument`: readiness guard, count the matching
chunks, delete them only when the count is positive, return the count. -/
def deleteDocument {V : Type} (s : ServiceState V) (documentId : String) :
    Except String (Nat × ServiceState V) :=
  match s.table, s.isReady with
  | some rows, true =>
      let pred := deletePredicate documentId
      match countRows pred rows with
      | .error e => .error ("Failed to delete document: " ++ e)
      | .ok count =>
          if count > 0 then
            match tableDelete pred rows with
            | .error e => .error ("Failed to delete document: " ++ e)
            | .ok remaining => .ok (count, { s with table := some remaining })
          else
            .ok (count, s)
  | _, _ => .error "LanceDBService not initialized. Call initialize() first."

/-- C7: for every table and quote-free documentId, `deleteDocument` on an
initialized service returns the number of chunks whose `document_id`
equals that id, leaves exactly the non-matching rows (in order), returns
0 without raising when nothing matches, and a second call for the same id
returns 0: idempotent and never an error on a non-existent id. -/
theorem deleteDocument_spec {V : Type} (s : ServiceState V)
    (rows : List (LanceRecord V)) (documentId : String)
    (hready : s.isReady = true) (htable : s.table = some rows)
    (hq : squote ∉ documentId.data) :
    deleteDocument s documentId =
        .ok ((rows.filter (fun r => r.document_id == documentId)).length,
          { s with table := some (rows.filter (fun r => !(r.document_id == documentId))) }) ∧
      ((rows.filter (fun r => r.document_id == documentId)).length = 0 →
        deleteDocument s documentId = .ok (0, s)) ∧
      deleteDocument
          { s with table := some (rows.filter (fun r => !(r.document_id == documentId))) }
          documentId =
        .ok (0, { s with
          table := some (rows.filter (fun r => !(r.document_id == documentId))) }) := by
  have hparse := parseEqPredicate_eqCondition "document_id" documentId hq
  have hfilter2 : (rows.filter (fun r => !(r.document_id == documentId))).filter
      (fun r => r.document_id == documentId) = [] := by
    rw [List.filter_filter]
    apply List.filter_eq_nil_iff.mpr
    intro r _
    cases h : r.document_id == documentId <;> simp [h]
  obtain ⟨ir, tb⟩ := s
  simp only at hready htable
  subst hready
  subst htable
  refine ⟨?_, ?_, ?_⟩
  · simp only [deleteDocument, countRows, tableDelete, deletePredicate, hparse]
    by_cases hm : (rows.filter (fun r => r.document_id == documentId)).length > 0
    · simp [hm]
    · have hz : (rows.filter (fun r => r.document_id == documentId)).length = 0 := by omega
      have hnil : rows.filter (fun r => r.document_id == documentId) = [] :=
        List.length_eq_zero.mp hz
      have hall : rows.filter (fun r => !(r.document_id == documentId)) = rows := by
        apply List.filter_eq_self.mpr
        intro r hr
        have := List.filter_eq_nil_iff.mp hnil r hr
        cases h : r.document_id == documentId
        · rfl
        · exact absurd h this
      simp [hm, hz, hall]
  · intro hz
    have hnil : rows.filter (fun r => r.document_id == documentId) = [] :=
      List.length_eq_zero.mp hz
    simp only [deleteDocument, countRows, tableDelete, deletePredicate, hparse, hnil]
    simp
  · simp only [deleteDocument, countRows, tableDelete, deletePredicate, hparse, hfilter2]
    simp

/-- A concrete chunk row carrying only a `document_id`, for the C7
witness. -/
def rowW (id : String) : LanceRecord Unit :=
  ⟨(), id, "c", 0, "", "", "", "", "", "", 0, "", "", "", 0, 0, 0⟩

/-- C7 (witness): deleting `doc_a` from a three-row table removes its two
chunks and returns 2; deleting an id with no chunks returns 0 without an
error. -/
theorem deleteDocument_spec_witness :
    deleteDocument ⟨true, some [rowW "doc_a", rowW "doc_b", rowW "doc_a"]⟩ "doc_a" =
        .ok (2, ⟨true, some [rowW "doc_b"]⟩) ∧
      deleteDocument (⟨true, some [rowW "doc_b"]⟩ : ServiceState Unit) "doc_missing" =
        .ok (0, ⟨true, some [rowW "doc_b"]⟩) := by
  constructor
  · have h := deleteDocument_spec ⟨true, some [rowW "doc_a", rowW "doc_b", rowW "doc_a"]⟩
      [rowW "doc_a", rowW "doc_b", rowW "doc_a"] "doc_a" rfl rfl (by decide)
    rw [h.1]
    rfl
  · have h := deleteDocument_spec (⟨true, some [rowW "doc_b"]⟩ : ServiceState Unit)
      [rowW "doc_b"] "doc_missing" rfl rfl (by decide)
    exact h.2.1 (by decide)

end LanceDBService

/-! ## Filter translation (src/database/lancedb-service.ts,
`similaritySearch` where-clause construction) -/

/-- The `dateRange` filter field (`{ start?, end? }`). -/
structure DateRange where
  start : Option String
  «end» : Option String
  deriving Repr, DecidableEq

/-- The `filters` parameter of `similaritySearch`. -/
structure SearchFilters where
  documentIds : Option (List String)
  fileTypes : Option (List String)
  language : Option String
  dateRange : Option DateRange
  deriving Repr, DecidableEq

/-- Comparison operator of a generated condition. -/
inductive CmpOp
  | eq
  | ge
  | le
  deriving Repr, DecidableEq

/-- One condition pushed onto the `conditions` array, as structured
data; `renderCond` below produces the exact interpolated string. -/
inductive FilterCond
  | inList (field : String) (values : List String)
  | cmp (field : String) (op : CmpOp) (value : String)
  deriving Repr, DecidableEq

namespace LanceDBService

/-- The `conditions` array built by `similaritySearch`, transcribed
branch for branch (JavaScript truthiness: a present-but-empty string is
falsy, so `if (filters.language)` and the date-bound checks skip empty
strings; arrays and objects are truthy, so the allow-lists are governed
by their `length > 0` checks alone). -/
def buildConditions (filters : Option SearchFilters) : List FilterCond :=
  match filters with
  | none => []
  | some f =>
      (match f.documentIds with
        | some ids => if ids.length > 0 then [.inList "document_id" ids] else []
        | none => []) ++
      (match f.fileTypes with
        | some ts => if ts.length > 0 then [.inList "file_type" ts] else []
        | none => []) ++
      (match f.language with
        | some l => if l == "" then [] else [.cmp "language" .eq l]
        | none => []) ++
      (match f.dateRange with
        | some dr =>
            (match dr.start with
              | some v => if v == "" then [] else [.cmp "created_at" .ge v]
              | none => []) ++
            (match dr.«end» with
              | some v => if v == "" then [] else [.cmp "created_at" .le v]
              | none => [])
        | none => [])

/-- The interpolated string of one condition, exactly as the source
writes it. -/
def renderCond : FilterCond → String
  | .inList f vs => inCondition f vs
  | .cmp f .eq v => eqCondition f v
  | .cmp f .ge v => f ++ " >= " ++ quoteValue v
  | .cmp f .le v => f ++ " <= " ++ quoteValue v

/-- The `where` clause handed to the query builder:
`conditions.join(' AND ')` when any condition exists, nothing
otherwise. -/
def whereClause (filters : Option SearchFilters) : Option String :=
  let conds := (buildConditions filters).map renderCond
  if conds.length > 0 then some (String.intercalate " AND " conds) else none

/-- Field lookup on a stored row for the four filterable columns. -/
def getField {V : Type} (r : LanceRecord V) (field : String) : Option String :=
  if field == "document_id" then some r.document_id
  else if field == "file_type" then some r.file_type
  else if field == "language" then some r.language
  else if field == "created_at" then some r.created_at
  else none

/-- The store's evaluation of one condition on a row. -/
def evalCond {V : Type} (r : LanceRecord V) : FilterCond → Bool
  | .inList f vs =>
      match getField r f with
      | some x => vs.contains x
      | none => false
  | .cmp f op v =>
      match getField r f with
      | some x =>
          match op with
          | .eq => x == v
          | .ge => decide (v ≤ x)
          | .le => decide (x ≤ v)
      | none => false

/-- The store's evaluation of the `AND`-joined condition list: the empty
list constrains nothing. -/
def evalConds {V : Type} (r : LanceRecord V) (conds : List FilterCond) : Bool :=
  conds.all (evalCond r)

end LanceDBService

/-- Modelled from the claim's words: the conjunction of document-id
membership, file-type membership, language equality and created-at
bounds for exactly the fields that are present, with an empty allow-list
(but nothing else) treated as no constraint. -/
def specFilterMatches {V : Type} (filters : Option SearchFilters)
    (r : LanceRecord V) : Bool :=
  match filters with
  | none => true
  | some f =>
      (match f.documentIds with
        | some ids => if ids = [] then true else ids.contains r.document_id
        | none => true) &&
      (match f.fileTypes with
        | some ts => if ts = [] then true else ts.contains r.file_type
        | none => true) &&
      (match f.language with
        | some l => r.language == l
        | none => true) &&
      (match f.dateRange with
        | some dr =>
            (match dr.start with
              | some v => decide (v ≤ r.created_at)
              | none => true) &&
            (match dr.«end» with
              | some v => decide (r.created_at ≤ v)
              | none => true)
        | none => true)

/-- The amended reading: as `specFilterMatches`, except that a
present-but-empty-string language or date bound is also no constraint
(JavaScript truthiness). -/
def amendedFilterMatches {V : Type} (filters : Option SearchFilters)
    (r : LanceRecord V) : Bool :=
  match filters with
  | none => true
  | some f =>
      (match f.documentIds with
        | some ids => if ids = [] then true else ids.contains r.document_id
        | none => true) &&
      (match f.fileTypes with
        | some ts => if ts = [] then true else ts.contains r.file_type
        | none => true) &&
      (match f.language with
        | some l => l == "" || r.language == l
        | none => true) &&
      (match f.dateRange with
        | some dr =>
            (match dr.start with
              | some v => v == "" || decide (v ≤ r.created_at)
              | none => true) &&
            (match dr.«end» with
              | some v => v == "" || decide (r.created_at ≤ v)
              | none => true)
        | none => true)

/-- Filters whose only field is a present-but-empty language string. -/
def emptyLangFilters : Option SearchFilters := some ⟨none, none, some "", none⟩

/-- A stored row whose language is `fr`. -/
def rowFr : LanceRecord Unit :=
  ⟨(), "d", "c", 0, "", "", "", "", "", "fr", 0, "", "", "", 0, 0, 0⟩

/-- C8 (counterexample): with `language: ""` present, the claim's
conjunction constrains language equality and rejects a row with
language `fr`, but the code emits no condition at all (empty string is
falsy), so the translation places no constraint and the row passes. -/
theorem filterTranslation_ne_claim :
    LanceDBService.buildConditions emptyLangFilters = [] ∧
      LanceDBService.whereClause emptyLangFilters = none ∧
      LanceDBService.evalConds rowFr (LanceDBService.buildConditions emptyLangFilters) =
        true ∧
      specFilterMatches emptyLangFilters rowFr = false := by
  refine ⟨rfl, rfl, rfl, ?_⟩
  decide

/-- C8 (amended): for every filters argument and row, the generated
condition list evaluates to the conjunction of document-id membership,
file-type membership, language equality and created-at bounds for
exactly the present fields, where an empty `documentIds`/`fileTypes`
allow-list and a present-but-empty-string language or date bound add no
constraint (never \"match nothing\"); and the where clause is omitted
exactly when no condition was generated. -/
theorem buildConditions_conjunction {V : Type} (filters : Option SearchFilters)
    (r : LanceRecord V) :
    LanceDBService.evalConds r (LanceDBService.buildConditions filters) =
        amendedFilterMatches filters r ∧
      (LanceDBService.whereClause filters = none ↔
        LanceDBService.buildConditions filters = []) := by
  constructor
  · rcases filters with _ | ⟨dis, fts, lang, dr⟩
    · rfl
    · simp only [LanceDBService.buildConditions, amendedFilterMatches,
        LanceDBService.evalConds, List.all_append]
      rcases dis with _ | ids <;> rcases fts with _ | ts <;>
        rcases lang with _ | l <;> rcases dr with _ | ⟨ds, de⟩ <;>
        (try (rcases ds with _ | dsv <;> rcases de with _ | dev)) <;>
        simp_all [LanceDBService.evalCond, LanceDBService.getField,
          List.isEmpty_iff, List.length_pos, List.all_append] <;>
        (try split_ifs) <;>
        simp_all [LanceDBService.evalCond, LanceDBService.getField, beq_eq_decide]
  · rw [LanceDBService.whereClause]
    rcases h : LanceDBService.buildConditions filters with _ | ⟨c, cs⟩ <;> simp

/-- A value containing single quotes, of the kind the claim describes
(`x' OR '1'='1`). -/
def injectionValue : String :=
  "x" ++ squoteStr ++ " OR " ++ squoteStr ++ "1" ++ squoteStr ++ "=" ++ squoteStr ++ "1"

/-- C9: the interpolated predicates are equality tests on the literal for
benign values, but for a value containing a single quote the generated
string no longer parses as an equality test on that literal — the quote
terminates the string literal early, in both `deleteDocument`'s predicate
and `similaritySearch`'s language condition. -/
theorem predicateInterpolation_unsafe :
    parseEqPredicate "document_id" (LanceDBService.deletePredicate "doc_4f2a1b3c9d0e") =
        some "doc_4f2a1b3c9d0e" ∧
      parseEqPredicate "language" (LanceDBService.eqCondition "language" "en") = some "en" ∧
      injectionValue.data.contains squote = true ∧
      parseEqPredicate "document_id" (LanceDBService.deletePredicate injectionValue) = none ∧
      parseEqPredicate "language" (LanceDBService.eqCondition "language" injectionValue) =
        none := by
  refine ⟨?_, ?_, ?_, ?_, ?_⟩ <;> decide

/-! ## Watcher debouncing (src/services/directory-watcher.ts,
`setupEventHandlers`): one lodash `debounce` wrapper per handler type,
shared across all file paths. -/

/-- One call of a debounced handler: its arrival time (ms) and the
handler's arguments (`filePath`, and `isNew` for the add/change
handler). -/
structure WatchEvent where
  time : Nat
  filePath : String
  isNew : Bool
  deriving Repr, DecidableEq

namespace DirectoryWatcher

/-- Trailing-edge lodash `debounce` over a time-ordered call sequence:
a call arriving strictly within `wait` ms of the previous one resets the
timer and replaces the pending arguments, so each maximal burst of calls
produces exactly one invocation, with the last call's arguments. -/
def debounceInvocations (wait : Nat) : List WatchEvent → List WatchEvent
  | [] => []
  | [e] => [e]
  | e :: f :: rest =>
      if f.time < e.time + wait then debounceInvocations wait (f :: rest)
      else e :: debounceInvocations wait (f :: rest)

/-- The file paths for which the debounced handler actually fires, i.e.
for which `processDocument` (or `deleteDocument`) is invoked. -/
def processedPaths (wait : Nat) (events : List WatchEvent) : List String :=
  (debounceInvocations wait events).map (fun e => e.filePath)

/-- C4 (counterexample): two `add` events for the different paths
`a.txt` and `b.txt` arriving 100 ms apart inside one 500 ms debounce
window produce a single invocation for `b.txt`; `a.txt` never reaches
the ingestion pipeline, so events for different paths are merged. -/
theorem debounce_merges_different_paths :
    debounceInvocations 500 [⟨0, "a.txt", true⟩, ⟨100, "b.txt", true⟩] =
        [⟨100, "b.txt", true⟩] ∧
      processedPaths 500 [⟨0, "a.txt", true⟩, ⟨100, "b.txt", true⟩] = ["b.txt"] ∧
      "a.txt" ∉ processedPaths 500 [⟨0, "a.txt", true⟩, ⟨100, "b.txt", true⟩] ∧
      "a.txt" ≠ "b.txt" := by
  refine ⟨rfl, rfl, ?_, ?_⟩ <;> decide

/-- C4 (amended): debouncing is global per handler type, so events within
one debounce window are coalesced regardless of path — a burst of
same-handler events with consecutive gaps under the delay yields exactly
one pipeline call, with the last event's path; only events spaced at or
beyond the delay each get their own call. -/
theorem debounceInvocations_spec (wait : Nat) (events : List WatchEvent) :
    (List.Chain' (fun a b => b.time < a.time + wait) events →
      ∀ h : events ≠ [], debounceInvocations wait events = [events.getLast h]) ∧
    (List.Chain' (fun a b => a.time + wait ≤ b.time) events →
      debounceInvocations wait events = events) := by
  constructor
  · intro hchain hne
    induction events with
    | nil => exact absurd rfl hne
    | cons e rest ih =>
        cases rest with
        | nil => rfl
        | cons f rs =>
            have hgap : f.time < e.time + wait := (List.chain'_cons.mp hchain).1
            have htail := (List.chain'_cons.mp hchain).2
            rw [debounceInvocations, if_pos hgap, ih htail (by simp)]
            exact congrArg (fun x => [x]) (List.getLast_cons (by simp)).symm
  · intro hchain
    induction events with
    | nil => rfl
    | cons e rest ih =>
        cases rest with
        | nil => rfl
        | cons f rs =>
            have hgap : e.time + wait ≤ f.time := (List.chain'_cons.mp hchain).1
            have htail := (List.chain'_cons.mp hchain).2
            rw [debounceInvocations, if_neg (by omega), ih htail]

/-- C4 (witness for the amended theorem): a three-event burst inside the
window collapses to the last event only, and two events 600 ms apart
with a 500 ms delay each fire. -/
theorem debounceInvocations_spec_witness :
    debounceInvocations 500 [⟨0, "a.txt", true⟩, ⟨100, "b.txt", true⟩, ⟨250, "c.txt", true⟩] =
        [⟨250, "c.txt", true⟩] ∧
      debounceInvocations 500 [⟨0, "a.txt", true⟩, ⟨600, "b.txt", true⟩] =
        [⟨0, "a.txt", true⟩, ⟨600, "b.txt", true⟩] := by
  constructor
  · exact (debounceInvocations_spec 500 _).1 (by norm_num [List.chain'_cons]) (by decide)
  · exact (debounceInvocations_spec 500 _).2 (by norm_num [List.chain'_cons])

end DirectoryWatcher

/-! ## Readiness state machine (src/utils/readiness.ts,
`ReadinessManager`) -/

/-- The `initializationState` field of `ReadinessStatus`. -/
inductive InitState
  | pending
  | complete
  | failed
  deriving Repr, DecidableEq

/-- One entry of the per-service status map. -/
structure ServiceEntry where
  ready : Bool
  error : Option String
  deriving Repr, DecidableEq

/-- The `ReadinessStatus` record, with the services map as an
insertion-ordered association list (JavaScript object key order). -/
structure ReadinessStatus where
  isReady : Bool
  services : List (String × ServiceEntry)
  initializationState : InitState
  initializationError : Option String
  deriving Repr, DecidableEq

/-- The `ReadinessManager`'s private fields.  `initializationPromise`
records whether the promise field is non-null. -/
structure ManagerState where
  isReady : Bool
  status : ReadinessStatus
  initializationPromise : Bool
  initializationFailed : Bool
  deriving Repr, DecidableEq

namespace ReadinessManager

/-- The freshly constructed manager (also the state `reset()`
restores). -/
def initialState : ManagerState :=
  { isReady := false
    status :=
      { isReady := false, services := [], initializationState := .pending
        initializationError := none }
    initializationPromise := false
    initializationFailed := false }

/-- JavaScript `this.status.services[name] = entry`: overwrite in place
if the key exists, else append (object key order). -/
def setService (name : String) (entry : ServiceEntry) :
    List (String × ServiceEntry) → List (String × ServiceEntry)
  | [] => [(name, entry)]
  | (n, e) :: rest =>
      if n = name then (n, entry) :: rest else (n, e) :: setService name entry rest

/-- The `catch` block's error attribution: find the first service whose
`ready` is `false` and record the error message on it. -/
def markFirstFailed (msg : String) :
    List (String × ServiceEntry) → List (String × ServiceEntry)
  | [] => []
  | (n, e) :: rest =>
      if e.ready = false then (n, { e with error := some msg }) :: rest
      else (n, e) :: markFirstFailed msg rest

/-- Outcomes of the four service-initialization awaits: `none` means the
await resolved, `some msg` that it threw `msg`. -/
structure InitEnv where
  embedding : Option String
  database : Option String
  documentProcessor : Option String
  directoryWatcher : Option String
  deriving Repr, DecidableEq

/-- The named startup steps in their fixed order; the directory watcher
runs only when document directories were supplied. -/
def initSteps (hasDirectories : Bool) (env : InitEnv) : List (String × Option String) :=
  [("embedding", env.embedding), ("database", env.database),
      ("documentProcessor", env.documentProcessor)] ++
    (if hasDirectories then [("directoryWatcher", env.directoryWatcher)] else [])

/-- The body of the `try` block: for each service, insert it as
`{ready: false}`, run its initialization, on success flip it to
`{ready: true}` and continue; a throw stops the sequence and returns the
message. -/
def runSteps (st : ReadinessStatus) :
    List (String × Option String) → ReadinessStatus × Option String
  | [] => (st, none)
  | (name, outcome) :: rest =>
      let st1 := { st with services := setService name ⟨false, none⟩ st.services }
      match outcome with
      | some e => (st1, some e)
      | none =>
          runSteps { st1 with services := setService name ⟨true, none⟩ st1.services } rest

/-- `ReadinessManager.performInitialization`: reset the visible status to
pending, run the fixed startup sequence; on success mark everything
ready and complete; on the first failure mark the failing service, set
the state machine to `failed`, record the error, clear the in-flight
promise and re-throw. -/
def performInitialization (s : ManagerState) (hasDirectories : Bool) (env : InitEnv) :
    ManagerState × Option String :=
  let st0 := { s.status with isReady := false, initializationState := InitState.pending }
  match runSteps st0 (initSteps hasDirectories env) with
  | (st, none) =>
      ({ s with
          isReady := true
          status := { st with isReady := true, initializationState := .complete } },
        none)
  | (st, some e) =>
      let msg := "Failed to initialize MCP server dependencies: " ++ e
      ({ s with
          status :=
            { st with
                services := markFirstFailed e st.services
                initializationState := .failed
                initializationError := some msg }
          initializationFailed := true
          initializationPromise := false },
        some msg)

/-- `ReadinessManager.initialize`: while a promise is in flight the call
just returns it (no state change, modelled as no error); otherwise it
stores a fresh promise and runs `performInitialization`. -/
def initializeFn (s : ManagerState) (hasDirectories : Bool) (env : InitEnv) :
    ManagerState × Option String :=
  if s.initializationPromise then (s, none)
  else performInitialization { s with initializationPromise := true } hasDirectories env

/-- `ReadinessManager.reset`. -/
def reset (_ : ManagerState) : ManagerState := initialState

/-! ### `waitForReady` as a polling run over an observation trace -/

/-- What one `checkReady` poll observes of the manager. -/
inductive Obs
  | ready
  | failed
  | pending
  deriving Repr, DecidableEq

/-- The observation a fixed manager state yields at every poll. -/
def obsOf (s : ManagerState) : Obs :=
  if s.isReady then .ready
  else if s.initializationFailed then .failed
  else .pending

/-- The four ways a `waitForReady` call can settle. -/
inductive WaitResult
  | ok
  | permanentFailure
  | failedDuringWait
  | timedOut
  deriving Repr, DecidableEq

/-- The `checkReady` polling loop: at poll `k` resolve on `ready`,
reject immediately on `failed`, otherwise re-arm the 100 ms timer; when
the poll budget is exhausted the timeout fires. -/
def pollLoop (obs : Nat → Obs) : Nat → Nat → WaitResult
  | 0, _ => .timedOut
  | fuel + 1, k =>
      match obs k with
      | .ready => .ok
      | .failed => .failedDuringWait
      | .pending => pollLoop obs fuel (k + 1)

/-- The number of polls that run before the `timeoutMs` timer fires:
`checkReady` runs once synchronously at time 0, then every 100 ms while
strictly before the timeout. -/
def effectivePolls (timeoutMs : Nat) : Nat := Nat.max 1 ((timeoutMs + 99) / 100)

/-- `ReadinessManager.waitForReady` over an observation trace: return at
once when already ready, raise the permanent-failure error at once when
already failed, otherwise poll. -/
def waitForReadyRun (obs : Nat → Obs) (timeoutMs : Nat) : WaitResult :=
  match obs 0 with
  | .ready => .ok
  | .failed => .permanentFailure
  | .pending => pollLoop obs (effectivePolls timeoutMs) 0

/-- Environment in which the first service (the embedding provider)
throws. -/
def envEmbeddingFails : InitEnv := ⟨some "model load failed", none, none, none⟩

/-- Environment in which every service initializes successfully. -/
def envAllOk : InitEnv := ⟨none, none, none, none⟩

/-- C1 (counterexample): after a failed `initialize()` the state machine
is `failed` and the in-flight promise is cleared — so a second
`initialize()` call, with no `reset()` in between, re-runs the startup
sequence and moves `initializationState` from `failed` back through
`pending` to `complete`: the failed status is not immutable until an
explicit reset. -/
theorem failedState_not_immutable :
    ((initializeFn initialState false envEmbeddingFails).1.status.initializationState =
        .failed) ∧
      (initializeFn initialState false envEmbeddingFails).1.initializationFailed = true ∧
      (initializeFn initialState false envEmbeddingFails).1.initializationPromise = false ∧
      ((initializeFn (initializeFn initialState false envEmbeddingFails).1 false
            envAllOk).1.status.initializationState = .complete) ∧
      (initializeFn (initializeFn initialState false envEmbeddingFails).1 false
          envAllOk).1.isReady = true := by
  refine ⟨?_, ?_, ?_, ?_, ?_⟩ <;> decide

/-- C1 (amended): once `failed` (failure flag set, promise cleared, not
ready), `waitForReady` raises the permanent-failure error and the status
stays `failed` until `reset()` or a further `initialize()` call; because
the failure handler cleared the promise, a later `initialize()` without
`reset()` does re-run the startup sequence — though the
`initializationFailed` flag itself is only cleared by `reset()`, which
restores the pristine pending state. -/
theorem failedState_behaviour (s : ManagerState) (hasDirectories : Bool)
    (env : InitEnv) (timeoutMs : Nat) (hf : s.initializationFailed = true)
    (hp : s.initializationPromise = false) (hr : s.isReady = false) :
    waitForReadyRun (fun _ => obsOf s) timeoutMs = .permanentFailure ∧
      initializeFn s hasDirectories env =
        performInitialization { s with initializationPromise := true }
          hasDirectories env ∧
      (initializeFn s hasDirectories env).1.initializationFailed = true ∧
      reset s = initialState := by
  have hobs : obsOf s = .failed := by simp [obsOf, hr, hf]
  have hrun : initializeFn s hasDirectories env =
      performInitialization { s with initializationPromise := true } hasDirectories env := by
    rw [initializeFn, if_neg (by simp [hp])]
  refine ⟨?_, hrun, ?_, rfl⟩
  · simp [waitForReadyRun, hobs]
  · rw [hrun]
    rcases hrs : runSteps
        { s.status with isReady := false, initializationState := InitState.pending }
        (initSteps hasDirectories env) with ⟨st, out⟩
    cases out <;> simp [performInitialization, hrs, hf]

/-- C1 (witness for the amended theorem): in the concrete failed state
left by a failed first `initialize()`, `waitForReady` raises at once, a
retrying `initialize()` leaves the stale failure flag set even though it
re-runs and succeeds, and `reset()` restores the initial state. -/
theorem failedState_behaviour_witness :
    waitForReadyRun
        (fun _ => obsOf (initializeFn initialState false envEmbeddingFails).1) 500 =
        .permanentFailure ∧
      (initializeFn (initializeFn initialState false envEmbeddingFails).1 false
          envAllOk).1.initializationFailed = true ∧
      reset (initializeFn initialState false envEmbeddingFails).1 = initialState := by
  have h := failedState_behaviour (initializeFn initialState false envEmbeddingFails).1
    false envAllOk 500 (by decide) (by decide) (by decide)
  exact ⟨h.1, h.2.2.1, h.2.2.2⟩

theorem pollLoop_pending (obs : Nat → Obs) (fuel start : Nat)
    (h : ∀ j, j < fuel → obs (start + j) = .pending) :
    pollLoop obs fuel start = .timedOut := by
  induction fuel generalizing start with
  | zero => rfl
  | succ n ih =>
      have h0 : obs start = .pending := by simpa using h 0 (Nat.succ_pos n)
      have hrest : ∀ j, j < n → obs (start + 1 + j) = .pending := by
        intro j hj
        have h2 := h (j + 1) (by omega)
        rwa [show start + (j + 1) = start + 1 + j by omega] at h2
      simp [pollLoop, h0, ih (start + 1) hrest]

theorem pollLoop_reaches (obs : Nat → Obs) (fuel start k : Nat) (hk : k < fuel)
    (hp : ∀ j, j < k → obs (start + j) = .pending) :
    (obs (start + k) = .ready → pollLoop obs fuel start = .ok) ∧
      (obs (start + k) = .failed → pollLoop obs fuel start = .failedDuringWait) := by
  induction k generalizing fuel start with
  | zero =>
      cases fuel with
      | zero => omega
      | succ n =>
          constructor <;> intro h <;> rw [Nat.add_zero] at h <;> simp [pollLoop, h]
  | succ m ih =>
      cases fuel with
      | zero => omega
      | succ n =>
          have h0 : obs start = .pending := by simpa using hp 0 (Nat.succ_pos m)
          have hstep : pollLoop obs (n + 1) start = pollLoop obs n (start + 1) := by
            simp [pollLoop, h0]
          have hrest : ∀ j, j < m → obs (start + 1 + j) = .pending := by
            intro j hj
            have h2 := hp (j + 1) (by omega)
            rwa [show start + (j + 1) = start + 1 + j by omega] at h2
          have ihx := ih n (start + 1) (by omega) hrest
          have hshift : start + 1 + m = start + (m + 1) := by omega
          constructor <;> intro h
          · rw [hstep]
            exact ihx.1 (by rwa [hshift])
          · rw [hstep]
            exact ihx.2 (by rwa [hshift])

/-- C6: on an initialized-or-initializing system, `waitForReady` returns
normally at the first poll that observes readiness; it raises a failure
error at the first poll that observes permanent failure — immediately at
call time when already failed, and mid-wait otherwise, in both cases
before the timeout; and it raises the timeout error exactly when every
poll within the timeout budget still observes `pending`. -/
theorem waitForReady_behaviour (obs : Nat → Obs) (timeoutMs : Nat) :
    ((∀ j, j < effectivePolls timeoutMs → obs j = .pending) →
        waitForReadyRun obs timeoutMs = .timedOut) ∧
      (∀ k, k < effectivePolls timeoutMs → (∀ j, j < k → obs j = .pending) →
        (obs k = .ready → waitForReadyRun obs timeoutMs = .ok) ∧
          (obs k = .failed →
            waitForReadyRun obs timeoutMs =
              (if k = 0 then .permanentFailure else .failedDuringWait))) := by
  have hpos : 0 < effectivePolls timeoutMs :=
    Nat.lt_of_lt_of_le Nat.one_pos (Nat.le_max_left _ _)
  constructor
  · intro h
    have h0 : obs 0 = .pending := h 0 hpos
    simp only [waitForReadyRun, h0]
    exact pollLoop_pending obs _ 0 (fun j hj => by simpa using h j hj)
  · intro k hk hp
    constructor <;> intro hobs
    · rcases Nat.eq_zero_or_pos k with rfl | hkpos
      · simp [waitForReadyRun, hobs]
      · have h0 : obs 0 = .pending := hp 0 hkpos
        simp only [waitForReadyRun, h0]
        exact (pollLoop_reaches obs _ 0 k hk (fun j hj => by simpa using hp j hj)).1
          (by simpa using hobs)
    · rcases Nat.eq_zero_or_pos k with rfl | hkpos
      · simp [waitForReadyRun, hobs]
      · have h0 : obs 0 = .pending := hp 0 hkpos
        rw [if_neg (by omega)]
        simp only [waitForReadyRun, h0]
        exact (pollLoop_reaches obs _ 0 k hk (fun j hj => by simpa using hp j hj)).2
          (by simpa using hobs)

/-- A trace that becomes ready at the third poll. -/
def obsReadyAt2 : Nat → Obs := fun k => if k < 2 then .pending else .ready

/-- A trace on which initialization fails mid-wait, at the third poll. -/
def obsFailAt2 : Nat → Obs := fun k => if k < 2 then .pending else .failed

/-- A trace that never leaves `pending`. -/
def obsPendingAll : Nat → Obs := fun _ => .pending

/-- C6 (witness): with a 1000 ms timeout (10 polls), readiness at the
third poll returns normally, a mid-wait failure at the third poll raises
the failure error rather than waiting for the timeout, and a trace that
stays pending for a 300 ms timeout raises the timeout error. -/
theorem waitForReady_behaviour_witness :
    waitForReadyRun obsReadyAt2 1000 = .ok ∧
      waitForReadyRun obsFailAt2 1000 = .failedDuringWait ∧
      waitForReadyRun obsPendingAll 300 = .timedOut := by
  refine ⟨?_, ?_, ?_⟩
  · exact ((waitForReady_behaviour obsReadyAt2 1000).2 2 (by decide) (by decide)).1
      (by decide)
  · have h := ((waitForReady_behaviour obsFailAt2 1000).2 2 (by decide) (by decide)).2
      (by decide)
    rw [h]
    decide
  · exact (waitForReady_behaviour obsPendingAll 300).1 (by decide)

end ReadinessManager

end DocArchive
